import Mathlib

/-!
Shallow embedding of the library-management backend's transactional
borrowing/return core.

The store is a triple of entity lists plus surrogate-key counters; each
operation is a pure function `Store → Except ErrKind (Store × payload)`
translated from the repository-pattern REST path
(`app/api/routes.py` + `app/repositories/*.py`), which is where the
consistency rules live.  The gRPC servicer (`app/services/library_service.py`)
duplicates the same logic but diverges on several operations; the divergent
gRPC methods are embedded separately under `grpc_*` names.

Dates are modelled as integer day numbers; `today` is passed as an explicit
argument (the code calls `date.today()`).  Copy counts are `Int`, like
Python ints.  Timestamps, pagination and wire formats carry no consistency
logic and are omitted.
-/

/-- Failure taxonomy of the core (spec §7).  The REST layer surfaces the
first three as HTTP 404 / 400 / 409, the gRPC layer as the status codes of
the same name; only the kind is part of the core contract.
`integrityError` is *outside* the taxonomy: it models an
`sqlalchemy.exc.IntegrityError` raised when a flush or commit violates a
constraint declared in `models.py` (the NOT NULL foreign keys
`borrow_records.book_id` / `member_id`, or the books CHECK
`available_copies >= 0 AND available_copies <= total_copies`).  No handler
catches it — `get_db_session` rolls the transaction back and re-raises, so
the caller sees an unhandled server error rather than a taxonomy kind. -/
inductive ErrKind where
  | notFound
  | failedPrecondition
  | alreadyExists
  | integrityError
  deriving Repr, DecidableEq

/-- `BookEntity` from `app/domain/entities.py` (timestamps omitted). -/
structure Book where
  id : Nat
  title : String
  author : String
  isbn : Option String
  published_year : Option Int
  genre : Option String
  total_copies : Int
  available_copies : Int
  deriving Repr, DecidableEq

/-- `BookEntity.is_available`: `available_copies > 0`. -/
def Book.is_available (b : Book) : Bool := 0 < b.available_copies

/-- `MemberEntity` from `app/domain/entities.py` (timestamps omitted). -/
structure Member where
  id : Nat
  name : String
  email : String
  phone : Option String
  address : Option String
  is_active : Bool
  deriving Repr, DecidableEq

/-- `MemberEntity.can_borrow`: just `is_active`. -/
def Member.can_borrow (m : Member) : Bool := m.is_active

/-- `BorrowRecordEntity` from `app/domain/entities.py`; `status` is the
literal string column, `"BORROWED"` or `"RETURNED"`. -/
structure BorrowRecord where
  id : Nat
  book_id : Nat
  member_id : Nat
  borrow_date : Int
  due_date : Int
  return_date : Option Int
  status : String
  deriving Repr, DecidableEq

/-- `BorrowRecordEntity.is_returned`. -/
def BorrowRecord.is_returned (r : BorrowRecord) : Bool := r.status == "RETURNED"

/-- The relational store: three tables plus autoincrement counters for the
surrogate keys the database assigns on insert. -/
structure Store where
  books : List Book
  members : List Member
  borrows : List BorrowRecord
  nextBookId : Nat
  nextMemberId : Nat
  nextBorrowId : Nat
  deriving Repr, DecidableEq

def emptyStore : Store := ⟨[], [], [], 1, 1, 1⟩

/-- The two configuration values the core consumes (`app/config.py`). -/
structure Settings where
  default_borrow_days : Int
  max_books_per_member : Nat
  deriving Repr

/-- Defaults from `Settings` in `app/config.py`. -/
def defaultSettings : Settings :=
  { default_borrow_days := 14, max_books_per_member := 5 }

/-- `session.query(X).filter(X.id == id).first()` mutates the single row it
returns; on the list model that is: rewrite the first element satisfying
`p`, leave everything else in place. -/
def updateFirst (p : α → Bool) (f : α → α) : List α → List α
  | [] => []
  | x :: xs => if p x then f x :: xs else x :: updateFirst p f xs

/-- `query(Book).filter(Book.id == id).first()`. -/
def findBook (s : Store) (id : Nat) : Option Book :=
  s.books.find? (fun b => b.id == id)

def findMember (s : Store) (id : Nat) : Option Member :=
  s.members.find? (fun m => m.id == id)

def findBorrow (s : Store) (id : Nat) : Option BorrowRecord :=
  s.borrows.find? (fun r => r.id == id)

/-- `BorrowRepository.get_active_borrows_count(member_id)`. -/
def get_active_borrows_count (s : Store) (memberId : Nat) : Nat :=
  (s.borrows.filter (fun r => r.member_id == memberId && r.status == "BORROWED")).length

/-- `BorrowRepository.get_total_borrows_count(member_id)`. -/
def get_total_borrows_count (s : Store) (memberId : Nat) : Nat :=
  (s.borrows.filter (fun r => r.member_id == memberId)).length

/-- `BorrowRepository.get_active_borrows_for_book(book_id)`. -/
def get_active_borrows_for_book (s : Store) (bookId : Nat) : Nat :=
  (s.borrows.filter (fun r => r.book_id == bookId && r.status == "BORROWED")).length

/-- `BorrowRepository.get_total_borrows_count_for_book(book_id)`. -/
def get_total_borrows_count_for_book (s : Store) (bookId : Nat) : Nat :=
  (s.borrows.filter (fun r => r.book_id == bookId)).length

/-- `BorrowRepository.has_active_borrow(book_id, member_id)`. -/
def has_active_borrow (s : Store) (bookId memberId : Nat) : Bool :=
  s.borrows.any (fun r =>
    r.book_id == bookId && r.member_id == memberId && r.status == "BORROWED")

/-- `BookRepository.isbn_exists(isbn)` with no exclusion. -/
def isbn_exists (s : Store) (i : String) : Bool :=
  s.books.any (fun b => b.isbn == some i)

/-- `BookRepository.isbn_exists(isbn, exclude_id=...)`. -/
def isbn_exists_excluding (s : Store) (i : String) (excludeId : Nat) : Bool :=
  s.books.any (fun b => b.isbn == some i && !(b.id == excludeId))

/-- `MemberRepository.email_exists(email)` with no exclusion. -/
def email_exists (s : Store) (e : String) : Bool :=
  s.members.any (fun m => m.email == e)

/-- `MemberRepository.email_exists(email, exclude_id=...)`. -/
def email_exists_excluding (s : Store) (e : String) (excludeId : Nat) : Bool :=
  s.members.any (fun m => m.email == e && !(m.id == excludeId))

/-- `BookRepository.decrease_available_copies`: refuses when the book is
missing or has no available copy, otherwise decrements by one. -/
def decrease_available_copies (s : Store) (bookId : Nat) : Store × Bool :=
  match findBook s bookId with
  | none => (s, false)
  | some b =>
    if b.available_copies ≤ 0 then (s, false)
    else
      let books' :=
        updateFirst (fun x => x.id == bookId)
          (fun x => { x with available_copies := x.available_copies - 1 }) s.books
      ({ s with books := books' }, true)

/-- `BookRepository.increase_available_copies`: increments by one, clamped
at `total_copies`; `False` when the book does not exist. -/
def increase_available_copies (s : Store) (bookId : Nat) : Store × Bool :=
  match findBook s bookId with
  | none => (s, false)
  | some _ =>
    let books' :=
      updateFirst (fun x => x.id == bookId)
        (fun x => { x with available_copies := min (x.available_copies + 1) x.total_copies })
        s.books
    ({ s with books := books' }, true)

/-- Partial-update field set for a book (`BookUpdate` schema after
`model_dump(exclude_unset=True)`); `none` means the field was not supplied.
An explicitly-null field behaves like an absent one in
`BookRepository.update` (both guards test `is not None`), so one `Option`
layer suffices. -/
structure BookUpdate where
  title : Option String := none
  author : Option String := none
  isbn : Option String := none
  published_year : Option Int := none
  genre : Option String := none
  total_copies : Option Int := none
  deriving Repr, DecidableEq

/-- Field application of `BookRepository.update`: when `total_copies` is
supplied, `available_copies` is recomputed as
`max(0, available_copies + (new_total - old_total))` before the field
assignments; every supplied field is then assigned. -/
def applyBookUpdate (u : BookUpdate) (b : Book) : Book :=
  let avail := match u.total_copies with
    | some tc => max 0 (b.available_copies + (tc - b.total_copies))
    | none => b.available_copies
  { b with
    available_copies := avail
    title := u.title.getD b.title
    author := u.author.getD b.author
    isbn := match u.isbn with | some i => some i | none => b.isbn
    published_year := match u.published_year with | some y => some y | none => b.published_year
    genre := match u.genre with | some g => some g | none => b.genre
    total_copies := u.total_copies.getD b.total_copies }

/-- Partial-update field set for a member (`MemberUpdate` schema after
`model_dump(exclude_unset=True)`); `none` means not supplied.
`MemberRepository.update` assigns `is_active` whenever the key is present
(even `False`), and other fields only when non-null. -/
structure MemberUpdate where
  name : Option String := none
  email : Option String := none
  phone : Option String := none
  address : Option String := none
  is_active : Option Bool := none
  deriving Repr, DecidableEq

/-- Field application of `MemberRepository.update`. -/
def applyMemberUpdate (u : MemberUpdate) (m : Member) : Member :=
  { m with
    name := u.name.getD m.name
    email := u.email.getD m.email
    phone := match u.phone with | some p => some p | none => m.phone
    address := match u.address with | some a => some a | none => m.address
    is_active := u.is_active.getD m.is_active }

/-- Outcome signalled by the REST `delete_member` route: physical removal
(`"deleted": true`) versus deactivation (`"deactivated": true`). -/
inductive DeleteOutcome where
  | deleted
  | deactivated
  deriving Repr, DecidableEq

/-- The `create_book` route's duplicate-ISBN guard
(`if book.isbn and uow.books.isbn_exists(book.isbn)`). -/
def create_isbn_conflict (s : Store) (isbn : Option String) : Bool :=
  match isbn with
  | some i => if i == "" then false else isbn_exists s i
  | none => false

/-- REST `create_book` (`routes.py`): duplicate-ISBN guard (truthy isbn
only), then insert with `available_copies = total_copies`.
`published_year`/`genre` are passed as absent: no claim constrains them at
creation. -/
def create_book (s : Store) (title author : String) (isbn : Option String)
    (total_copies : Int) : Except ErrKind (Store × Book) :=
  if create_isbn_conflict s isbn then .error .alreadyExists
  else
    let b : Book :=
      { id := s.nextBookId, title := title, author := author, isbn := isbn,
        published_year := none, genre := none,
        total_copies := total_copies, available_copies := total_copies }
    .ok ({ s with books := s.books ++ [b], nextBookId := s.nextBookId + 1 }, b)

/-- REST `create_member` (`routes.py`): duplicate-email guard, then insert
with `is_active` defaulted to true. -/
def create_member (s : Store) (name email : String) :
    Except ErrKind (Store × Member) :=
  if email_exists s email then .error .alreadyExists
  else
    let m : Member :=
      { id := s.nextMemberId, name := name, email := email,
        phone := none, address := none, is_active := true }
    .ok ({ s with members := s.members ++ [m], nextMemberId := s.nextMemberId + 1 }, m)

/-- REST `get_book` (`routes.py`). -/
def get_book (s : Store) (bookId : Nat) : Except ErrKind Book :=
  match findBook s bookId with
  | none => .error .notFound
  | some b => .ok b

/-- The `update_book` route's duplicate-ISBN guard: fires when the update
supplies a truthy isbn that another book already carries. -/
def isbn_conflict (s : Store) (bookId : Nat) (u : BookUpdate) : Bool :=
  match u.isbn with
  | some i => if i == "" then false else isbn_exists_excluding s i bookId
  | none => false

/-- REST `update_book` (`routes.py`): 404 when missing, duplicate-ISBN
guard excluding self (truthy isbn only), then `BookRepository.update`. -/
def update_book (s : Store) (bookId : Nat) (u : BookUpdate) :
    Except ErrKind (Store × Book) :=
  match findBook s bookId with
  | none => .error .notFound
  | some b =>
    if isbn_conflict s bookId u then .error .alreadyExists
    else
      let books' := updateFirst (fun x => x.id == bookId) (applyBookUpdate u) s.books
      .ok ({ s with books := books' }, applyBookUpdate u b)

/-- The `update_member` route's duplicate-email guard: fires when the update
supplies a truthy email that another member already carries. -/
def email_conflict (s : Store) (memberId : Nat) (u : MemberUpdate) : Bool :=
  match u.email with
  | some e => if e == "" then false else email_exists_excluding s e memberId
  | none => false

/-- REST `update_member` (`routes.py`): 404 when missing, duplicate-email
guard excluding self (truthy email only), then `MemberRepository.update`. -/
def update_member (s : Store) (memberId : Nat) (u : MemberUpdate) :
    Except ErrKind (Store × Member) :=
  match findMember s memberId with
  | none => .error .notFound
  | some m =>
    if email_conflict s memberId u then .error .alreadyExists
    else
      let members' := updateFirst (fun x => x.id == memberId) (applyMemberUpdate u) s.members
      .ok ({ s with members := members' }, applyMemberUpdate u m)

/-- REST `delete_book` (`routes.py`): 404 when missing; FailedPrecondition
while any BORROWED record exists; FailedPrecondition while any historical
record exists at all; only then physical removal. -/
def delete_book (s : Store) (bookId : Nat) : Except ErrKind Store :=
  match findBook s bookId with
  | none => .error .notFound
  | some _ =>
    if 0 < get_active_borrows_for_book s bookId then .error .failedPrecondition
    else if 0 < get_total_borrows_count_for_book s bookId then .error .failedPrecondition
    else .ok { s with books := s.books.eraseP (fun b => b.id == bookId) }

/-- REST `delete_member` (`routes.py`): 404 when missing; FailedPrecondition
while any BORROWED record exists; deactivation instead of removal when any
historical record exists; physical removal only with zero history. -/
def delete_member (s : Store) (memberId : Nat) :
    Except ErrKind (Store × DeleteOutcome) :=
  match findMember s memberId with
  | none => .error .notFound
  | some _ =>
    if 0 < get_active_borrows_count s memberId then .error .failedPrecondition
    else if 0 < get_total_borrows_count s memberId then
      let members' := updateFirst (fun m => m.id == memberId)
        (fun m => { m with is_active := false }) s.members
      .ok ({ s with members := members' }, .deactivated)
    else
      .ok ({ s with members := s.members.eraseP (fun m => m.id == memberId) }, .deleted)

/-- REST `borrow_book` (`routes.py`): the six-step precondition ladder, then
decrement available copies and insert the new BORROWED record (one
transaction, committed together). -/
def borrow_book (st : Settings) (today : Int) (s : Store) (bookId memberId : Nat) :
    Except ErrKind (Store × BorrowRecord) :=
  match findBook s bookId with
  | none => .error .notFound
  | some book =>
    if !book.is_available then .error .failedPrecondition
    else match findMember s memberId with
      | none => .error .notFound
      | some member =>
        if !member.can_borrow then .error .failedPrecondition
        else if st.max_books_per_member ≤ get_active_borrows_count s memberId then
          .error .failedPrecondition
        else if has_active_borrow s bookId memberId then .error .alreadyExists
        else
          let r : BorrowRecord :=
            { id := s.nextBorrowId, book_id := bookId, member_id := memberId,
              borrow_date := today, due_date := today + st.default_borrow_days,
              return_date := none, status := "BORROWED" }
          let s1 := (decrease_available_copies s bookId).1
          .ok ({ s1 with borrows := s1.borrows ++ [r], nextBorrowId := s1.nextBorrowId + 1 }, r)

/-- REST `return_book` (`routes.py`): 404 when missing, FailedPrecondition
when already returned; otherwise `BorrowRepository.mark_returned` followed
by the clamped `BookRepository.increase_available_copies` on the record's
`book_id` (which tolerates a missing book), in one transaction. -/
def return_book (today : Int) (s : Store) (borrowId : Nat) :
    Except ErrKind (Store × BorrowRecord) :=
  match findBorrow s borrowId with
  | none => .error .notFound
  | some r =>
    if r.is_returned then .error .failedPrecondition
    else
      let r' := { r with return_date := some today, status := "RETURNED" }
      let borrows' := updateFirst (fun x => x.id == borrowId)
        (fun x => { x with return_date := some today, status := "RETURNED" }) s.borrows
      let s1 := { s with borrows := borrows' }
      let s2 := (increase_available_copies s1 r.book_id).1
      .ok (s2, r')

/-! ### gRPC servicer methods that diverge from the repository path

`LibraryServiceServicer` in `app/services/library_service.py` reimplements
the business logic against the same database.  Four of its methods differ
from the REST path and are embedded here.  Two kinds of abort both roll
the transaction back and leave the store unchanged, which the
`Except.error` result models: `context.abort` raises a taxonomy error, and
a flush or commit that violates a schema constraint of `models.py` raises
an `IntegrityError` that `get_db_session` re-raises after rollback
(modelled as `.error .integrityError`).  The schema facts used below:
`borrow_records.book_id` and `borrow_records.member_id` are NOT NULL
foreign keys whose relationships carry the default (nullify-on-delete)
cascade, so deleting a book or member that any borrow record references
cannot commit; and the books CHECK `available_copies >= 0 AND
available_copies <= total_copies` is verified on every written book row. -/

/-- gRPC `DeleteBook`: checks only the active-borrow count — no
application-level guard on historical (RETURNED) records — then calls
`db.delete(book)`.  When any borrow record still references the book, the
flush at commit tries to nullify `borrow_records.book_id` (NOT NULL) and
aborts with `IntegrityError`: the book survives and the error surfaces
outside the taxonomy.  Only a book with zero records is actually
removed. -/
def grpc_DeleteBook (s : Store) (bookId : Nat) : Except ErrKind Store :=
  match findBook s bookId with
  | none => .error .notFound
  | some _ =>
    if 0 < get_active_borrows_for_book s bookId then .error .failedPrecondition
    else if 0 < get_total_borrows_count_for_book s bookId then .error .integrityError
    else .ok { s with books := s.books.eraseP (fun b => b.id == bookId) }

/-- gRPC `DeleteMember`: checks only the active-borrow count and then calls
`db.delete(member)`; there is no deactivation branch and the reply
(`Empty`) carries no outcome.  When any borrow record still references the
member, the flush at commit trips the NOT NULL foreign key
`borrow_records.member_id` and aborts with `IntegrityError`: the member
survives, unchanged (not deactivated), and the error surfaces outside the
taxonomy.  Only a member with zero records is actually removed. -/
def grpc_DeleteMember (s : Store) (memberId : Nat) : Except ErrKind Store :=
  match findMember s memberId with
  | none => .error .notFound
  | some _ =>
    if 0 < get_active_borrows_count s memberId then .error .failedPrecondition
    else if 0 < get_total_borrows_count s memberId then .error .integrityError
    else .ok { s with members := s.members.eraseP (fun m => m.id == memberId) }

/-- gRPC `ReturnBook`: marks the record returned, then increments the
book's `available_copies` by one with **no application-level clamp** (and
skips the book silently when it no longer exists).  The `db.flush()` that
follows verifies the books CHECK constraint on the written row: when the
unclamped increment would leave `available_copies` outside
`[0, total_copies]` the flush aborts with `IntegrityError` and the whole
transaction — the record update included — is rolled back. -/
def grpc_ReturnBook (today : Int) (s : Store) (borrowId : Nat) :
    Except ErrKind (Store × BorrowRecord) :=
  match findBorrow s borrowId with
  | none => .error .notFound
  | some r =>
    if r.status == "RETURNED" then .error .failedPrecondition
    else
      let r' := { r with return_date := some today, status := "RETURNED" }
      let borrows' := updateFirst (fun x => x.id == borrowId)
        (fun x => { x with return_date := some today, status := "RETURNED" }) s.borrows
      let s1 := { s with borrows := borrows' }
      match findBook s1 r.book_id with
      | none => .ok (s1, r')
      | some b =>
        if 0 ≤ b.available_copies + 1 ∧ b.available_copies + 1 ≤ b.total_copies then
          let books' := updateFirst (fun x => x.id == r.book_id)
            (fun x => { x with available_copies := x.available_copies + 1 }) s1.books
          .ok ({ s1 with books := books' }, r')
        else .error .integrityError

/-- A proto3 `UpdateMemberRequest`: scalar fields have no presence, so an
unset string arrives as `""` and an unset bool as `false`. -/
structure GrpcUpdateMemberRequest where
  name : String := ""
  email : String := ""
  phone : String := ""
  address : String := ""
  is_active : Bool := false
  deriving Repr, DecidableEq

/-- gRPC `UpdateMember`: string fields are applied only when truthy, but
`member.is_active = request.is_active` is executed unconditionally.  The
duplicate-email abort rolls the whole transaction back, so checking it
before applying the fields is observationally equivalent. -/
def grpc_UpdateMember (s : Store) (memberId : Nat) (req : GrpcUpdateMemberRequest) :
    Except ErrKind (Store × Member) :=
  match findMember s memberId with
  | none => .error .notFound
  | some m =>
    if req.email != "" && email_exists_excluding s req.email memberId then
      .error .alreadyExists
    else
      let f : Member → Member := fun x =>
        { x with
          name := if req.name == "" then x.name else req.name
          email := if req.email == "" then x.email else req.email
          phone := if req.phone == "" then x.phone else some req.phone
          address := if req.address == "" then x.address else some req.address
          is_active := req.is_active }
      .ok ({ s with members := updateFirst (fun x => x.id == memberId) f s.members }, f m)

/-- gRPC `BorrowBook`: the same six-step precondition ladder as the REST
route; the effect decrements `available_copies` directly on the fetched
row instead of going through `decrease_available_copies`. -/
def grpc_BorrowBook (st : Settings) (today : Int) (s : Store) (bookId memberId : Nat) :
    Except ErrKind (Store × BorrowRecord) :=
  match findBook s bookId with
  | none => .error .notFound
  | some book =>
    if book.available_copies ≤ 0 then .error .failedPrecondition
    else match findMember s memberId with
      | none => .error .notFound
      | some member =>
        if !member.is_active then .error .failedPrecondition
        else if st.max_books_per_member ≤ get_active_borrows_count s memberId then
          .error .failedPrecondition
        else if has_active_borrow s bookId memberId then .error .alreadyExists
        else
          let r : BorrowRecord :=
            { id := s.nextBorrowId, book_id := bookId, member_id := memberId,
              borrow_date := today, due_date := today + st.default_borrow_days,
              return_date := none, status := "BORROWED" }
          let books' := updateFirst (fun b => b.id == bookId)
            (fun b => { b with available_copies := b.available_copies - 1 }) s.books
          let s1 := { s with books := books', borrows := s.borrows ++ [r], nextBorrowId := s.nextBorrowId + 1 }
          .ok (s1, r)

/-! ### One committed transaction of a core operation -/

/-- One core operation, as named by the spec's §4.2 (the two creation calls
included, since the copy-count invariant quantifies over them too). -/
inductive Op where
  | createBook (title author : String) (isbn : Option String) (total_copies : Int)
  | createMember (name email : String)
  | borrow (today : Int) (bookId memberId : Nat)
  | ret (today : Int) (borrowId : Nat)
  | updateBook (bookId : Nat) (u : BookUpdate)
  | updateMember (memberId : Nat) (u : MemberUpdate)
  | deleteBook (bookId : Nat)
  | deleteMember (memberId : Nat)
  deriving Repr

/-- The store produced by one committed transaction of a core operation
(payloads projected away); `.error` is an aborted, rolled-back call. -/
def applyOp (st : Settings) (s : Store) : Op → Except ErrKind Store
  | .createBook t a i tc => (create_book s t a i tc).map Prod.fst
  | .createMember n e => (create_member s n e).map Prod.fst
  | .borrow today bid mid => (borrow_book st today s bid mid).map Prod.fst
  | .ret today rid => (return_book today s rid).map Prod.fst
  | .updateBook bid u => (update_book s bid u).map Prod.fst
  | .updateMember mid u => (update_member s mid u).map Prod.fst
  | .deleteBook bid => delete_book s bid
  | .deleteMember mid => (delete_member s mid).map Prod.fst

/-- Count of BORROWED records for one book — the quantity the spec's
copy-count invariant subtracts. -/
def borrowedCountFor (s : Store) (bid : Nat) : Nat :=
  s.borrows.countP (fun r => r.book_id == bid && r.status == "BORROWED")

/-- Spec §8 / claim C1: for every book in the store,
`available_copies = total_copies - count(BORROWED records for it)`. -/
def CopyCountInv (s : Store) : Prop :=
  ∀ b ∈ s.books, b.available_copies = b.total_copies - (borrowedCountFor s b.id : Int)

/-- Structural well-formedness every store reachable from `emptyStore`
enjoys: surrogate keys are distinct and below their counters, records
reference key values the book counter has already passed, and `status`
takes only its two column values. -/
def WF (s : Store) : Prop :=
  (s.books.map Book.id).Nodup ∧
  (s.members.map Member.id).Nodup ∧
  (s.borrows.map BorrowRecord.id).Nodup ∧
  (∀ b ∈ s.books, b.id < s.nextBookId) ∧
  (∀ m ∈ s.members, m.id < s.nextMemberId) ∧
  (∀ r ∈ s.borrows, r.id < s.nextBorrowId ∧ r.book_id < s.nextBookId ∧
    (r.status = "BORROWED" ∨ r.status = "RETURNED"))

/-- True unless the operation is an `UpdateBook` that shrinks an existing
book's `total_copies` strictly below its current BORROWED-record count —
the one case (noted open in spec §9) in which the update formula clamps at
0 and the copy-count identity is lost. -/
def noShrinkBelowBorrowed (s : Store) : Op → Bool
  | .updateBook bid u =>
    match findBook s bid, u.total_copies with
    | some _, some tc => (borrowedCountFor s bid : Int) ≤ tc
    | _, _ => true
  | _ => true

/-! ### Claim-side transcription of the BorrowBook precondition ladder -/

/-- Transcribed from claim C2's own wording (not from the source): the six
preconditions in the claim's order, returning the error kind of the first
failing one, or `none` when all six hold.  The theorem for C2 compares the
source-derived `borrow_book`/`grpc_BorrowBook` against this ladder. -/
def borrowFirstFailureSpec (st : Settings) (s : Store) (bookId memberId : Nat) :
    Option ErrKind :=
  match findBook s bookId with
  | none => some .notFound
  | some book =>
    if book.available_copies ≤ 0 then some .failedPrecondition
    else match findMember s memberId with
      | none => some .notFound
      | some member =>
        if !member.is_active then some .failedPrecondition
        else if st.max_books_per_member ≤ get_active_borrows_count s memberId then
          some .failedPrecondition
        else if has_active_borrow s bookId memberId then some .alreadyExists
        else none

/-- Error projection: the kind of a failed call, `none` on success. -/
def errorOf : Except ErrKind α → Option ErrKind
  | .error k => some k
  | .ok _ => none

/-! ### Concrete scenario stores

Concrete stores for witnesses and counterexamples, built by running the
embedded operations themselves from the empty store so that every
counterexample state is visibly reachable. -/

/-- Sequencing for building scenario stores. -/
def andThen (x : Except ErrKind Store) (f : Store → Except ErrKind Store) :
    Except ErrKind Store :=
  match x with
  | .ok s => f s
  | .error e => .error e

/-- Total projection of a build result (scenario builds are all `.ok`;
the equations in the theorems check that). -/
def getStore (x : Except ErrKind Store) : Store :=
  match x with
  | .ok s => s
  | .error _ => emptyStore

/-- Book 1 (two copies), members 1 and 2, both copies borrowed, then
`UpdateBook` shrinks `total_copies` to 1: the post-shrink store of the
spec's §9 open question. -/
def shrinkScenario : Except ErrKind Store :=
  andThen (applyOp defaultSettings emptyStore (.createBook "Dune" "Herbert" none 2)) fun s1 =>
  andThen (applyOp defaultSettings s1 (.createMember "Ann" "ann@lib.io")) fun s2 =>
  andThen (applyOp defaultSettings s2 (.createMember "Bob" "bob@lib.io")) fun s3 =>
  andThen (applyOp defaultSettings s3 (.borrow 0 1 1)) fun s4 =>
  andThen (applyOp defaultSettings s4 (.borrow 0 1 2)) fun s5 =>
  .ok s5

/-- The same scenario after the shrinking `UpdateBook`. -/
def shrinkUpdate : BookUpdate := { total_copies := some 1 }

/-- Book 1 created, borrowed by member 1 and returned: one RETURNED record,
no active borrow — the history-guard scenario of spec §8 Scenario C/D. -/
def historyScenario : Except ErrKind Store :=
  andThen (applyOp defaultSettings emptyStore (.createBook "Dune" "Herbert" none 1)) fun s1 =>
  andThen (applyOp defaultSettings s1 (.createMember "Ann" "ann@lib.io")) fun s2 =>
  andThen (applyOp defaultSettings s2 (.borrow 0 1 1)) fun s3 =>
  andThen (applyOp defaultSettings s3 (.ret 3 1)) fun s4 =>
  .ok s4

/-- The post-borrow-and-return store, named for use in statements. -/
def histStore : Store := getStore historyScenario

/-- The drifted store of the §9 open question, reached through REST calls
alone: shrink `total_copies` to 1 while both copies are out (committing
`available = 0, total = 1`, CHECK-satisfying), then return the first copy
through the clamped REST path (`available = min(0+1, 1) = 1`).  The result
has `available_copies = total_copies = 1` while record 2 is still
BORROWED. -/
def driftScenario : Except ErrKind Store :=
  andThen (applyOp defaultSettings (getStore shrinkScenario) (.updateBook 1 shrinkUpdate)) fun s6 =>
  applyOp defaultSettings s6 (.ret 3 1)

/-- A minimal healthy store for witnesses: one book (1 copy), one active
member, no records. -/
def witnessStore : Store :=
  getStore (andThen (applyOp defaultSettings emptyStore (.createBook "Ubik" "Dick" none 1)) fun s1 =>
    applyOp defaultSettings s1 (.createMember "Eve" "eve@lib.io"))

instance (s : Store) : Decidable (CopyCountInv s) := by
  unfold CopyCountInv; infer_instance

instance (s : Store) : Decidable (WF s) := by
  unfold WF; infer_instance

/-! ### Lemmas about `updateFirst` (the `.first()`-row mutation) -/

theorem find?_append_of_false {α} (p : α → Bool) :
    ∀ l1 : List α, (∀ y ∈ l1, p y = false) → ∀ l2 : List α,
      (l1 ++ l2).find? p = l2.find? p := by
  intro l1
  induction l1 with
  | nil => intro _ l2; rfl
  | cons a as ih =>
    intro hl1 l2
    have hpa := hl1 a (by simp)
    simp only [List.cons_append, List.find?_cons, hpa]
    exact ih (fun y hy => hl1 y (List.mem_cons_of_mem a hy)) l2

theorem updateFirst_of_find?_none {α} (p : α → Bool) (f : α → α) :
    ∀ l : List α, l.find? p = none → updateFirst p f l = l := by
  intro l
  induction l with
  | nil => intro _; rfl
  | cons x xs ih =>
    intro h
    rw [List.find?_cons] at h
    split at h
    · exact absurd h (by simp)
    · next hpx =>
        simp [updateFirst, hpx, ih h]

theorem updateFirst_decomp {α} (p : α → Bool) (f : α → α) :
    ∀ (l : List α) (x : α), l.find? p = some x →
      ∃ l1 l2, l = l1 ++ x :: l2 ∧ (∀ y ∈ l1, p y = false) ∧
        updateFirst p f l = l1 ++ f x :: l2 := by
  intro l
  induction l with
  | nil => intro x h; simp [List.find?] at h
  | cons a as ih =>
    intro x h
    rw [List.find?_cons] at h
    split at h
    · next hpa =>
        obtain rfl : a = x := by injection h
        exact ⟨[], as, by simp, by simp, by simp [updateFirst, hpa]⟩
    · next hpa =>
        obtain ⟨l1, l2, hl, hl1, hu⟩ := ih x h
        refine ⟨a :: l1, l2, by simp [hl], ?_, ?_⟩
        · intro y hy
          rcases List.mem_cons.mp hy with rfl | hy'
          · exact hpa
          · exact hl1 y hy'
        · simp [updateFirst, hpa, hu]

theorem length_updateFirst {α} (p : α → Bool) (f : α → α) :
    ∀ l : List α, (updateFirst p f l).length = l.length := by
  intro l
  induction l with
  | nil => rfl
  | cons a as ih =>
    by_cases hpa : p a = true
    · simp [updateFirst, hpa]
    · simp only [Bool.not_eq_true] at hpa
      simp [updateFirst, hpa, ih]

theorem find?_updateFirst {α} (p : α → Bool) (f : α → α) (l : List α) (x : α)
    (h : l.find? p = some x) (hfx : p (f x) = true) :
    (updateFirst p f l).find? p = some (f x) := by
  obtain ⟨l1, l2, _, hl1, hu⟩ := updateFirst_decomp p f l x h
  rw [hu, find?_append_of_false p l1 hl1, List.find?_cons, hfx]

theorem map_updateFirst_of_key {β γ : Type} (key : β → γ) (p : β → Bool) (f : β → β)
    (hf : ∀ x, key (f x) = key x) :
    ∀ l : List β, (updateFirst p f l).map key = l.map key := by
  intro l
  induction l with
  | nil => rfl
  | cons a as ih =>
    by_cases hpa : p a = true
    · simp [updateFirst, hpa, hf]
    · simp only [Bool.not_eq_true] at hpa
      simp [updateFirst, hpa, ih]

theorem nodup_map_append_fresh {β : Type} (key : β → Nat) (l : List β) (x : β) (n : Nat)
    (hnd : (l.map key).Nodup) (hlt : ∀ y ∈ l, key y < n) (hx : key x = n) :
    ((l ++ [x]).map key).Nodup := by
  rw [List.map_append]
  rw [List.nodup_append]
  refine ⟨hnd, List.nodup_singleton _, ?_⟩
  intro a ha hb
  simp only [List.map_cons, List.map_nil, List.mem_singleton] at hb
  obtain ⟨y, hy, hyk⟩ := List.mem_map.mp ha
  subst hb
  rw [hx] at hyk
  exact absurd hyk (Nat.ne_of_lt (hlt y hy))

/-! ### Preservation of the copy-count invariant, operation by operation -/

theorem inv_wf_create_member (s : Store) (n e : String) (s' : Store)
    (hwf : WF s) (hinv : CopyCountInv s)
    (h : (create_member s n e).map Prod.fst = .ok s') :
    CopyCountInv s' ∧ WF s' := by
  unfold create_member at h
  split at h
  · simp [Except.map] at h
  · simp only [Except.map] at h
    injection h with h
    subst h
    obtain ⟨hb, hm, hr, hbb, hmb, hrb⟩ := hwf
    refine ⟨fun b hb' => hinv b hb', ?_⟩
    refine ⟨hb, ?_, hr, hbb, ?_, ?_⟩
    · exact nodup_map_append_fresh Member.id s.members _ s.nextMemberId hm hmb rfl
    · intro m hm'
      rcases List.mem_append.mp hm' with hm'' | hm''
      · exact Nat.lt_succ_of_lt (hmb m hm'')
      · simp only [List.mem_singleton] at hm''
        subst hm''
        exact Nat.lt_succ_self _
    · intro r hr'
      exact hrb r hr'

theorem inv_wf_create_book (s : Store) (t a : String) (i : Option String) (tc : Int)
    (s' : Store) (hwf : WF s) (hinv : CopyCountInv s)
    (h : (create_book s t a i tc).map Prod.fst = .ok s') :
    CopyCountInv s' ∧ WF s' := by
  unfold create_book at h
  split at h
  · simp [Except.map] at h
  · simp only [Except.map] at h
    injection h with h
    subst h
    obtain ⟨hb, hm, hr, hbb, hmb, hrb⟩ := hwf
    constructor
    · intro b hb'
      rcases List.mem_append.mp hb' with hbs | hbs
      · exact hinv b hbs
      · simp only [List.mem_singleton] at hbs
        subst hbs
        have hzero : borrowedCountFor s s.nextBookId = 0 := by
          rw [borrowedCountFor, List.countP_eq_zero]
          intro r hr'
          have := (hrb r hr').2.1
          simp only [Bool.and_eq_true, beq_iff_eq]
          intro hcontra
          exact absurd hcontra.1 (Nat.ne_of_lt this)
        show tc = tc - (borrowedCountFor s s.nextBookId : Int)
        rw [hzero]
        simp
    · refine ⟨?_, hm, hr, ?_, hmb, ?_⟩
      · exact nodup_map_append_fresh Book.id s.books _ s.nextBookId hb hbb rfl
      · intro b hb'
        rcases List.mem_append.mp hb' with hbs | hbs
        · exact Nat.lt_succ_of_lt (hbb b hbs)
        · simp only [List.mem_singleton] at hbs
          subst hbs
          exact Nat.lt_succ_self _
      · intro r hr'
        obtain ⟨h1, h2, h3⟩ := hrb r hr'
        exact ⟨h1, Nat.lt_succ_of_lt h2, h3⟩

theorem bound_of_map_key {β : Type} (key : β → Nat) (n : Nat) (l l' : List β)
    (hmap : l'.map key = l.map key) (hlt : ∀ y ∈ l, key y < n) :
    ∀ y ∈ l', key y < n := by
  intro y hy
  have hmem : key y ∈ l'.map key := List.mem_map_of_mem key hy
  rw [hmap] at hmem
  obtain ⟨z, hz, hzk⟩ := List.mem_map.mp hmem
  exact hzk ▸ hlt z hz

theorem key_ne_of_nodup_decomp {β : Type} (key : β → Nat) (l1 l2 : List β) (b : β)
    (hnd : ((l1 ++ b :: l2).map key).Nodup) :
    ∀ y ∈ l2, key y ≠ key b := by
  intro y hy
  rw [List.map_append, List.map_cons] at hnd
  have hright := hnd.of_append_right
  rw [List.nodup_cons] at hright
  intro hcontra
  exact hright.1 (hcontra ▸ List.mem_map_of_mem key hy)

theorem countP_middle {β : Type} (q : β → Bool) (m1 m2 : List β) (x : β) :
    (m1 ++ x :: m2).countP q = m1.countP q + m2.countP q + (if q x then 1 else 0) := by
  rw [List.countP_append, List.countP_cons]
  omega

theorem inv_wf_delete_book (s : Store) (bid : Nat) (s' : Store)
    (hwf : WF s) (hinv : CopyCountInv s)
    (h : delete_book s bid = .ok s') :
    CopyCountInv s' ∧ WF s' := by
  unfold delete_book at h
  split at h
  · exact absurd h (by simp)
  · split at h
    · exact absurd h (by simp)
    · split at h
      · exact absurd h (by simp)
      · injection h with h
        subst h
        obtain ⟨hb, hm, hr, hbb, hmb, hrb⟩ := hwf
        have hsub : List.Sublist (s.books.eraseP (fun b => b.id == bid)) s.books :=
          List.eraseP_sublist s.books
        refine ⟨?_, ?_, hm, hr, ?_, hmb, hrb⟩
        · intro b hb'
          exact hinv b (List.mem_of_mem_eraseP hb')
        · exact hb.sublist (hsub.map Book.id)
        · intro b hb'
          exact hbb b (List.mem_of_mem_eraseP hb')

theorem inv_wf_delete_member (s : Store) (mid : Nat) (s' : Store)
    (hwf : WF s) (hinv : CopyCountInv s)
    (h : (delete_member s mid).map Prod.fst = .ok s') :
    CopyCountInv s' ∧ WF s' := by
  unfold delete_member at h
  split at h
  · simp [Except.map] at h
  · split at h
    · simp [Except.map] at h
    · obtain ⟨hb, hm, hr, hbb, hmb, hrb⟩ := hwf
      split at h
      · -- deactivation branch: members rewritten in place
        simp only [Except.map] at h
        injection h with h
        subst h
        have hmap := map_updateFirst_of_key Member.id (fun m => m.id == mid)
          (fun m => { m with is_active := false }) (fun _ => rfl) s.members
        refine ⟨fun b hb' => hinv b hb', hb, hmap ▸ hm, hr, hbb, ?_, hrb⟩
        exact bound_of_map_key Member.id s.nextMemberId s.members _ hmap hmb
      · -- physical-removal branch
        simp only [Except.map] at h
        injection h with h
        subst h
        have hsub : List.Sublist (s.members.eraseP (fun m => m.id == mid)) s.members :=
          List.eraseP_sublist s.members
        refine ⟨fun b hb' => hinv b hb', hb, hm.sublist (hsub.map Member.id), hr, hbb, ?_, hrb⟩
        intro m hm'
        exact hmb m (List.mem_of_mem_eraseP hm')

theorem inv_wf_update_member (s : Store) (mid : Nat) (u : MemberUpdate) (s' : Store)
    (hwf : WF s) (hinv : CopyCountInv s)
    (h : (update_member s mid u).map Prod.fst = .ok s') :
    CopyCountInv s' ∧ WF s' := by
  unfold update_member at h
  split at h
  · simp [Except.map] at h
  · split at h
    · simp [Except.map] at h
    · simp only [Except.map] at h
      injection h with h
      subst h
      obtain ⟨hb, hm, hr, hbb, hmb, hrb⟩ := hwf
      have hmap := map_updateFirst_of_key Member.id (fun m => m.id == mid)
        (applyMemberUpdate u) (fun _ => rfl) s.members
      refine ⟨fun b hb' => hinv b hb', hb, hmap ▸ hm, hr, hbb, ?_, hrb⟩
      exact bound_of_map_key Member.id s.nextMemberId s.members _ hmap hmb

theorem borrowedCountFor_books (s : Store) (bl : List Book) (i : Nat) :
    borrowedCountFor { s with books := bl } i = borrowedCountFor s i := rfl

theorem borrowedCountFor_members (s : Store) (ml : List Member) (i : Nat) :
    borrowedCountFor { s with members := ml } i = borrowedCountFor s i := rfl

theorem inv_wf_update_book (s : Store) (bid : Nat) (u : BookUpdate) (s' : Store)
    (hwf : WF s) (hinv : CopyCountInv s)
    (hns : noShrinkBelowBorrowed s (.updateBook bid u) = true)
    (h : (update_book s bid u).map Prod.fst = .ok s') :
    CopyCountInv s' ∧ WF s' := by
  unfold update_book at h
  split at h
  · simp [Except.map] at h
  · next b hfb =>
    split at h
    · simp [Except.map] at h
    · simp only [Except.map] at h
      injection h with h
      subst h
      obtain ⟨hb, hm, hr, hbb, hmb, hrb⟩ := hwf
      have hfb' : s.books.find? (fun x => x.id == bid) = some b := hfb
      obtain ⟨l1, l2, hl, hl1, hu⟩ :=
        updateFirst_decomp (fun x => x.id == bid) (applyBookUpdate u) s.books b hfb'
      have hmap := map_updateFirst_of_key Book.id (fun x => x.id == bid)
        (applyBookUpdate u) (fun _ => rfl) s.books
      constructor
      · intro x hx
        rw [hu] at hx
        rcases List.mem_append.mp hx with hx1 | hx2
        · exact hinv x (hl ▸ List.mem_append_left _ hx1)
        · rcases List.mem_cons.mp hx2 with rfl | hx3
          · -- the rewritten row itself
            have hbmem : b ∈ s.books := List.mem_of_find?_eq_some hfb'
            have hbinv := hinv b hbmem
            have hbid : b.id = bid := by
              have hps := List.find?_some hfb'
              simpa using hps
            cases htc : u.total_copies with
            | none =>
              simp only [applyBookUpdate, htc, borrowedCountFor_books]
              exact hbinv
            | some tc =>
              have hns' : (borrowedCountFor s bid : Int) ≤ tc := by
                unfold noShrinkBelowBorrowed at hns
                simp only [hfb, htc, decide_eq_true_eq] at hns
                exact hns
              rw [← hbid] at hns'
              simp only [applyBookUpdate, htc, Option.getD_some, borrowedCountFor_books]
              have hz : b.available_copies + (tc - b.total_copies)
                  = tc - (borrowedCountFor s b.id : Int) := by omega
              rw [hz]
              exact max_eq_right (by omega)
          · exact hinv x (hl ▸ List.mem_append_right _ (List.mem_cons_of_mem b hx3))
      · refine ⟨hmap ▸ hb, hm, hr, ?_, hmb, hrb⟩
        exact bound_of_map_key Book.id s.nextBookId s.books _ hmap hbb

theorem inv_wf_borrow (st : Settings) (today : Int) (s : Store) (bid mid : Nat)
    (s' : Store) (hwf : WF s) (hinv : CopyCountInv s)
    (h : (borrow_book st today s bid mid).map Prod.fst = .ok s') :
    CopyCountInv s' ∧ WF s' := by
  unfold borrow_book at h
  split at h
  · simp [Except.map] at h
  · next book hfb =>
    split at h
    · simp [Except.map] at h
    · next hav =>
      split at h
      · simp [Except.map] at h
      · next member hfm =>
        split at h
        · simp [Except.map] at h
        · next _hcb =>
          split at h
          · simp [Except.map] at h
          · next _hlim =>
            split at h
            · simp [Except.map] at h
            · next _hdup =>
              have hpos : 0 < book.available_copies := by
                simp only [Book.is_available, Bool.not_eq_true] at hav
                simpa using hav
              have hdec : decrease_available_copies s bid =
                  ({ s with
                     books := updateFirst (fun x => x.id == bid)
                       (fun x => { x with available_copies := x.available_copies - 1 })
                       s.books }, true) := by
                unfold decrease_available_copies
                simp only [hfb]
                rw [if_neg (not_le.mpr hpos)]
              rw [hdec] at h
              simp only [Except.map] at h
              injection h with h
              subst h
              obtain ⟨hb, hm, hr, hbb, hmb, hrb⟩ := hwf
              have hfb' : s.books.find? (fun x => x.id == bid) = some book := hfb
              have hbid : book.id = bid := by
                have hps := List.find?_some hfb'
                simpa using hps
              have hbmem : book ∈ s.books := List.mem_of_find?_eq_some hfb'
              obtain ⟨l1, l2, hl, hl1, hu⟩ :=
                updateFirst_decomp (fun x => x.id == bid)
                  (fun x => { x with available_copies := x.available_copies - 1 })
                  s.books book hfb'
              have hmap := map_updateFirst_of_key Book.id (fun x => x.id == bid)
                (fun x => { x with available_copies := x.available_copies - 1 })
                (fun _ => rfl) s.books
              have hcnt : ∀ i, borrowedCountFor
                  { s with
                    books := updateFirst (fun x => x.id == bid)
                      (fun x => { x with available_copies := x.available_copies - 1 }) s.books
                    borrows := s.borrows ++
                      [{ id := s.nextBorrowId, book_id := bid, member_id := mid,
                         borrow_date := today, due_date := today + st.default_borrow_days,
                         return_date := none, status := "BORROWED" }]
                    nextBorrowId := s.nextBorrowId + 1 } i
                  = borrowedCountFor s i + (if bid == i then 1 else 0) := by
                intro i
                simp [borrowedCountFor, List.countP_append, List.countP_cons]
              constructor
              · intro x hx
                have hx' : x ∈ updateFirst (fun x => x.id == bid)
                    (fun x => { x with available_copies := x.available_copies - 1 })
                    s.books := hx
                rw [hu] at hx'
                rw [hcnt x.id]
                rcases List.mem_append.mp hx' with hx1 | hx2
                · have hne : bid ≠ x.id := by
                    have := hl1 x hx1
                    simp only [beq_eq_false_iff_ne] at this
                    exact fun hc => this hc.symm
                  rw [if_neg (by simpa using hne)]
                  simpa using hinv x (hl ▸ List.mem_append_left _ hx1)
                · rcases List.mem_cons.mp hx2 with rfl | hx3
                  · have hbinv := hinv book hbmem
                    have hid : ({ book with
                        available_copies := book.available_copies - 1 } : Book).id
                        = book.id := rfl
                    rw [hid, hbid, if_pos (by simp)]
                    show book.available_copies - 1
                      = book.total_copies - ((borrowedCountFor s bid + 1 : Nat) : Int)
                    rw [← hbid] at *
                    omega
                  · have hne : bid ≠ x.id := by
                      have hxid := key_ne_of_nodup_decomp Book.id l1 l2 book (hl ▸ hb) x hx3
                      rw [hbid] at hxid
                      exact fun hc => hxid hc.symm
                    rw [if_neg (by simpa using hne)]
                    simpa using
                      hinv x (hl ▸ List.mem_append_right _ (List.mem_cons_of_mem book hx3))
              · refine ⟨hmap ▸ hb, hm, ?_, ?_, hmb, ?_⟩
                · exact nodup_map_append_fresh BorrowRecord.id s.borrows _ s.nextBorrowId hr
                    (fun y hy => (hrb y hy).1) rfl
                · exact bound_of_map_key Book.id s.nextBookId s.books _ hmap hbb
                · intro r hr'
                  rcases List.mem_append.mp hr' with hr1 | hr2
                  · obtain ⟨h1, h2, h3⟩ := hrb r hr1
                    exact ⟨Nat.lt_succ_of_lt h1, h2, h3⟩
                  · simp only [List.mem_singleton] at hr2
                    subst hr2
                    refine ⟨Nat.lt_succ_self _, ?_, Or.inl rfl⟩
                    exact hbid ▸ hbb book hbmem

theorem inv_wf_return (today : Int) (s : Store) (rid : Nat) (s' : Store)
    (hwf : WF s) (hinv : CopyCountInv s)
    (h : (return_book today s rid).map Prod.fst = .ok s') :
    CopyCountInv s' ∧ WF s' := by
  unfold return_book at h
  split at h
  · simp [Except.map] at h
  · next r hfr =>
    split at h
    · simp [Except.map] at h
    · next hret =>
      simp only [Except.map] at h
      injection h with h
      subst h
      obtain ⟨hb, hm, hr, hbb, hmb, hrb⟩ := hwf
      have hfr' : s.borrows.find? (fun x => x.id == rid) = some r := hfr
      have hrmem : r ∈ s.borrows := List.mem_of_find?_eq_some hfr'
      have hstatus : r.status = "BORROWED" := by
        simp only [BorrowRecord.is_returned, Bool.not_eq_true, beq_eq_false_iff_ne] at hret
        rcases (hrb r hrmem).2.2 with h1 | h1
        · exact h1
        · exact absurd h1 hret
      obtain ⟨m1, m2, hl, hl1, hu⟩ :=
        updateFirst_decomp (fun x => x.id == rid)
          (fun x => { x with return_date := some today, status := "RETURNED" })
          s.borrows r hfr'
      have hmapR := map_updateFirst_of_key BorrowRecord.id (fun x => x.id == rid)
        (fun x => { x with return_date := some today, status := "RETURNED" })
        (fun _ => rfl) s.borrows
      have hcntL : ∀ i,
          ((updateFirst (fun x => x.id == rid)
              (fun x => { x with return_date := some today, status := "RETURNED" })
              s.borrows).countP (fun x => x.book_id == i && x.status == "BORROWED"))
            + (if r.book_id == i then 1 else 0)
          = s.borrows.countP (fun x => x.book_id == i && x.status == "BORROWED") := by
        intro i
        rw [hu]
        conv => rhs; rw [hl]
        rw [countP_middle, countP_middle]
        have hgr : ((("RETURNED" : String) == "BORROWED") = false) := rfl
        simp [hstatus, hgr]
      -- the borrows side of well-formedness, shared by both book cases
      have hWFr : ∀ y ∈ updateFirst (fun x => x.id == rid)
          (fun x => { x with return_date := some today, status := "RETURNED" }) s.borrows,
          y.id < s.nextBorrowId ∧ y.book_id < s.nextBookId ∧
            (y.status = "BORROWED" ∨ y.status = "RETURNED") := by
        intro y hy
        rw [hu] at hy
        rcases List.mem_append.mp hy with hy1 | hy2
        · exact hrb y (hl ▸ List.mem_append_left _ hy1)
        · rcases List.mem_cons.mp hy2 with rfl | hy3
          · obtain ⟨h1, h2, _⟩ := hrb r hrmem
            exact ⟨h1, h2, Or.inr rfl⟩
          · exact hrb y (hl ▸ List.mem_append_right _ (List.mem_cons_of_mem r hy3))
      cases hfb : findBook s r.book_id with
      | none =>
        have hinc : increase_available_copies
            { s with
              borrows := updateFirst (fun x => x.id == rid)
                (fun x => { x with return_date := some today, status := "RETURNED" })
                s.borrows } r.book_id
            = ({ s with
                 borrows := updateFirst (fun x => x.id == rid)
                   (fun x => { x with return_date := some today, status := "RETURNED" })
                   s.borrows }, false) := by
          unfold increase_available_copies
          have hfb1 : findBook
              { s with
                borrows := updateFirst (fun x => x.id == rid)
                  (fun x => { x with return_date := some today, status := "RETURNED" })
                  s.borrows } r.book_id = none := hfb
          simp only [hfb1]
        rw [hinc]
        have hnone := List.find?_eq_none.mp
          (hfb : s.books.find? (fun x => x.id == r.book_id) = none)
        constructor
        · intro x hx
          have hxne : r.book_id ≠ x.id := by
            have := hnone x hx
            simp only [beq_iff_eq] at this
            exact fun hc => this hc.symm
          have hc := hcntL x.id
          rw [if_neg (by simpa using hxne), Nat.add_zero] at hc
          show x.available_copies = x.total_copies
            - ((updateFirst (fun x => x.id == rid)
                (fun x => { x with return_date := some today, status := "RETURNED" })
                s.borrows).countP
                  (fun y => y.book_id == x.id && y.status == "BORROWED") : Int)
          rw [hc]
          exact hinv x hx
        · exact ⟨hb, hm, hmapR ▸ hr, hbb, hmb, hWFr⟩
      | some b =>
        have hfb' : s.books.find? (fun x => x.id == r.book_id) = some b := hfb
        have hbid : b.id = r.book_id := by
          have hps := List.find?_some hfb'
          simpa using hps
        have hbmem : b ∈ s.books := List.mem_of_find?_eq_some hfb'
        have hinc : increase_available_copies
            { s with
              borrows := updateFirst (fun x => x.id == rid)
                (fun x => { x with return_date := some today, status := "RETURNED" })
                s.borrows } r.book_id
            = ({ s with
                 books := updateFirst (fun x => x.id == r.book_id)
                   (fun x =>
                     { x with available_copies := min (x.available_copies + 1) x.total_copies })
                   s.books
                 borrows := updateFirst (fun x => x.id == rid)
                   (fun x => { x with return_date := some today, status := "RETURNED" })
                   s.borrows }, true) := by
          unfold increase_available_copies
          have hfb1 : findBook
              { s with
                borrows := updateFirst (fun x => x.id == rid)
                  (fun x => { x with return_date := some today, status := "RETURNED" })
                  s.borrows } r.book_id = some b := hfb
          simp only [hfb1]
        rw [hinc]
        obtain ⟨l1, l2, hlb, hl1b, hub⟩ :=
          updateFirst_decomp (fun x => x.id == r.book_id)
            (fun x => { x with available_copies := min (x.available_copies + 1) x.total_copies })
            s.books b hfb'
        have hmapB := map_updateFirst_of_key Book.id (fun x => x.id == r.book_id)
          (fun x => { x with available_copies := min (x.available_copies + 1) x.total_copies })
          (fun _ => rfl) s.books
        constructor
        · intro x hx
          have hx' : x ∈ updateFirst (fun x => x.id == r.book_id)
              (fun x => { x with available_copies := min (x.available_copies + 1) x.total_copies })
              s.books := hx
          rw [hub] at hx'
          show x.available_copies = x.total_copies
            - ((updateFirst (fun x => x.id == rid)
                (fun x => { x with return_date := some today, status := "RETURNED" })
                s.borrows).countP
                  (fun y => y.book_id == x.id && y.status == "BORROWED") : Int)
          rcases List.mem_append.mp hx' with hx1 | hx2
          · have hxne : r.book_id ≠ x.id := by
              have := hl1b x hx1
              simp only [beq_eq_false_iff_ne] at this
              exact fun hc => this hc.symm
            have hc := hcntL x.id
            rw [if_neg (by simpa using hxne), Nat.add_zero] at hc
            rw [hc]
            exact hinv x (hlb ▸ List.mem_append_left _ hx1)
          · rcases List.mem_cons.mp hx2 with rfl | hx3
            · have hbinv : b.available_copies = b.total_copies
                  - (s.borrows.countP
                      (fun y => y.book_id == b.id && y.status == "BORROWED") : Int) :=
                hinv b hbmem
              have hc := hcntL b.id
              rw [if_pos (by simp [hbid])] at hc
              show min (b.available_copies + 1) b.total_copies = b.total_copies
                - ((updateFirst (fun x => x.id == rid)
                    (fun x => { x with return_date := some today, status := "RETURNED" })
                    s.borrows).countP
                      (fun y => y.book_id == b.id && y.status == "BORROWED") : Int)
              have hle : b.available_copies + 1 ≤ b.total_copies := by omega
              rw [min_eq_left hle]
              omega
            · have hxne : r.book_id ≠ x.id := by
                have hne := key_ne_of_nodup_decomp Book.id l1 l2 b (hlb ▸ hb) x hx3
                rw [hbid] at hne
                exact fun hc => hne hc.symm
              have hc := hcntL x.id
              rw [if_neg (by simpa using hxne), Nat.add_zero] at hc
              rw [hc]
              exact hinv x (hlb ▸ List.mem_append_right _ (List.mem_cons_of_mem b hx3))
        · refine ⟨hmapB ▸ hb, hm, hmapR ▸ hr, ?_, hmb, hWFr⟩
          exact bound_of_map_key Book.id s.nextBookId s.books _ hmapB hbb

/-! ### Claim theorems -/

/-- C1 (amended).  Copy-count conservation: from any well-formed store
satisfying the invariant, every committed transaction of a core operation
(create, BorrowBook, ReturnBook, UpdateBook, DeleteBook, DeleteMember,
UpdateMember) preserves `available_copies = total_copies - count(BORROWED
records)` for every book — except that an UpdateBook which shrinks
`total_copies` strictly below the book's current BORROWED count breaks it
(that case is excluded by the `noShrinkBelowBorrowed` hypothesis, and the
counterexample shows the exclusion is necessary; spec §9 records the same
formula as an open question). -/
theorem copy_count_conservation (st : Settings) (s : Store) (op : Op) (s' : Store)
    (hwf : WF s) (hinv : CopyCountInv s)
    (hns : noShrinkBelowBorrowed s op = true)
    (h : applyOp st s op = .ok s') :
    CopyCountInv s' ∧ WF s' := by
  cases op with
  | createBook t a i tc => exact inv_wf_create_book s t a i tc s' hwf hinv h
  | createMember n e => exact inv_wf_create_member s n e s' hwf hinv h
  | borrow today bid mid => exact inv_wf_borrow st today s bid mid s' hwf hinv h
  | ret today rid => exact inv_wf_return today s rid s' hwf hinv h
  | updateBook bid u => exact inv_wf_update_book s bid u s' hwf hinv hns h
  | updateMember mid u => exact inv_wf_update_member s mid u s' hwf hinv h
  | deleteBook bid => exact inv_wf_delete_book s bid s' hwf hinv h
  | deleteMember mid => exact inv_wf_delete_member s mid s' hwf hinv h

/-- Witness for C1: a concrete BorrowBook transaction from a concrete
well-formed store, with every hypothesis discharged by evaluation. -/
theorem copy_count_conservation_witness :
    CopyCountInv (getStore (applyOp defaultSettings witnessStore (.borrow 0 1 1))) ∧
    WF (getStore (applyOp defaultSettings witnessStore (.borrow 0 1 1))) :=
  copy_count_conservation defaultSettings witnessStore (.borrow 0 1 1)
    (getStore (applyOp defaultSettings witnessStore (.borrow 0 1 1)))
    (by decide) (by decide) (by decide) rfl

/-- Counterexample for C1 as frozen: from the reachable store in which both
copies of book 1 are BORROWED, the committed `UpdateBook` transaction that
shrinks `total_copies` from 2 to 1 leaves `available_copies = 0` while
`total_copies - count(BORROWED) = 1 - 2 = -1`: the invariant fails after a
committed transaction of a listed core operation. -/
theorem copy_count_conservation_counterexample :
    shrinkScenario = .ok (getStore shrinkScenario) ∧
    WF (getStore shrinkScenario) ∧
    CopyCountInv (getStore shrinkScenario) ∧
    applyOp defaultSettings (getStore shrinkScenario) (.updateBook 1 shrinkUpdate)
      = .ok (getStore
          (applyOp defaultSettings (getStore shrinkScenario) (.updateBook 1 shrinkUpdate))) ∧
    ¬ CopyCountInv
        (getStore (applyOp defaultSettings (getStore shrinkScenario) (.updateBook 1 shrinkUpdate))) :=
  ⟨rfl, by decide, by decide, rfl, by decide⟩

theorem borrow_ladder_rest (st : Settings) (today : Int) (s : Store) (bookId memberId : Nat) :
    errorOf (borrow_book st today s bookId memberId)
      = borrowFirstFailureSpec st s bookId memberId := by
  unfold borrow_book borrowFirstFailureSpec
  cases hfb : findBook s bookId with
  | none => rfl
  | some book =>
    by_cases hav : book.available_copies ≤ 0
    · have h1 : (!book.is_available) = true := by
        simp only [Book.is_available, Bool.not_eq_true']
        simpa using hav
      simp [h1, hav, errorOf]
    · have h1 : (!book.is_available) = false := by
        simp only [Book.is_available, Bool.not_eq_false']
        simpa using not_le.mp hav
      simp only [h1, Bool.false_eq_true, if_false, if_neg hav]
      cases hfm : findMember s memberId with
      | none => rfl
      | some member =>
        by_cases hact : member.is_active
        · have h2 : (!member.can_borrow) = false := by simp [Member.can_borrow, hact]
          have h2s : (!member.is_active) = false := by simp [hact]
          simp only [h2, h2s, Bool.false_eq_true, if_false]
          by_cases hlim : st.max_books_per_member ≤ get_active_borrows_count s memberId
          · simp [hlim, errorOf]
          · simp only [if_neg hlim]
            by_cases hdup : has_active_borrow s bookId memberId
            · simp [hdup, errorOf]
            · simp [hdup, errorOf]
        · have h2 : (!member.can_borrow) = true := by simp [Member.can_borrow, hact]
          have h2s : (!member.is_active) = true := by simp [hact]
          simp [h2, h2s, errorOf]

theorem borrow_ladder_grpc (st : Settings) (today : Int) (s : Store) (bookId memberId : Nat) :
    errorOf (grpc_BorrowBook st today s bookId memberId)
      = borrowFirstFailureSpec st s bookId memberId := by
  unfold grpc_BorrowBook borrowFirstFailureSpec
  cases hfb : findBook s bookId with
  | none => rfl
  | some book =>
    by_cases hav : book.available_copies ≤ 0
    · simp [hav, errorOf]
    · simp only [if_neg hav]
      cases hfm : findMember s memberId with
      | none => rfl
      | some member =>
        by_cases hact : member.is_active
        · have h2 : (!member.is_active) = false := by simp [hact]
          simp only [h2, Bool.false_eq_true, if_false]
          by_cases hlim : st.max_books_per_member ≤ get_active_borrows_count s memberId
          · simp [hlim, errorOf]
          · simp only [if_neg hlim]
            by_cases hdup : has_active_borrow s bookId memberId
            · simp [hdup, errorOf]
            · simp [hdup, errorOf]
        · have h2 : (!member.is_active) = true := by simp [hact]
          simp [h2, errorOf]

/-- C2 (confirmed).  Both implementations of BorrowBook — the REST route
and the gRPC servicer method — evaluate the six preconditions in exactly
the claimed order: the error kind of a failing call equals the kind
assigned by `borrowFirstFailureSpec` (the claim's own first-failure
ladder), and the call succeeds exactly when that ladder reports no
failure. -/
theorem borrow_preconditions_order (st : Settings) (today : Int) (s : Store)
    (bookId memberId : Nat) :
    errorOf (borrow_book st today s bookId memberId)
      = borrowFirstFailureSpec st s bookId memberId ∧
    errorOf (grpc_BorrowBook st today s bookId memberId)
      = borrowFirstFailureSpec st s bookId memberId :=
  ⟨borrow_ladder_rest st today s bookId memberId,
   borrow_ladder_grpc st today s bookId memberId⟩

/-- C3 (amended).  History guard on book deletion, as implemented by the
REST `delete_book` route: for an existing book with no BORROWED record,
any historical BorrowRecord at all (RETURNED included) makes the call fail
with FailedPrecondition (the transaction aborts, so the book survives),
and only a book with zero BorrowRecords is physically removed, after which
`get_book` returns NotFound.  The gRPC `DeleteBook` has no
application-level historical guard: its delete attempt on a book with
RETURNED-only history aborts at commit on the NOT NULL foreign key with an
unhandled `IntegrityError` — the book survives, but the failure is not the
claimed FailedPrecondition, so the error-kind half of the claim is
restricted to the REST path (the counterexample shows the gRPC kind). -/
theorem delete_book_history_guard (s : Store) (bookId : Nat) (b : Book)
    (hwf : WF s) (hb : findBook s bookId = some b)
    (hact : get_active_borrows_for_book s bookId = 0) :
    (0 < get_total_borrows_count_for_book s bookId →
      delete_book s bookId = .error .failedPrecondition) ∧
    (get_total_borrows_count_for_book s bookId = 0 →
      delete_book s bookId
        = .ok { s with books := s.books.eraseP (fun x => x.id == bookId) } ∧
      get_book { s with books := s.books.eraseP (fun x => x.id == bookId) } bookId
        = .error .notFound) := by
  constructor
  · intro htot
    unfold delete_book
    simp only [hb]
    rw [if_neg (by omega), if_pos htot]
  · intro htot
    have hb' : s.books.find? (fun x => x.id == bookId) = some b := hb
    have hmem : b ∈ s.books := List.mem_of_find?_eq_some hb'
    have hpb := List.find?_some hb'
    constructor
    · unfold delete_book
      simp only [hb]
      rw [if_neg (by omega), if_neg (by omega)]
    · obtain ⟨a, l1, l2, h1, hpa, hl, he⟩ :=
        @List.exists_of_eraseP _ (fun x => x.id == bookId) _ _ hmem hpb
      have hfind : (s.books.eraseP (fun x => x.id == bookId)).find?
          (fun x => x.id == bookId) = none := by
        rw [he, find?_append_of_false _ l1
          (fun y hy => Bool.not_eq_true _ ▸ Bool.of_not_eq_true (h1 y hy)) l2]
        apply List.find?_eq_none.mpr
        intro y hy
        have hne := key_ne_of_nodup_decomp Book.id l1 l2 a (hl ▸ hwf.1) y hy
        have haid : a.id = bookId := by simpa using hpa
        simp only [beq_iff_eq]
        exact fun hc => hne (hc.trans haid.symm)
      unfold get_book
      have hfind' : findBook
          { s with books := s.books.eraseP (fun x => x.id == bookId) } bookId = none := hfind
      simp only [hfind']


/-- Witness for C3: the guard branch on the reachable store whose book 1
carries one RETURNED record, and the removal branch on the store whose
book 1 has no records. -/
theorem delete_book_history_guard_witness :
    ((0 < get_total_borrows_count_for_book histStore 1 →
        delete_book histStore 1 = .error .failedPrecondition) ∧
      (get_total_borrows_count_for_book histStore 1 = 0 →
        delete_book histStore 1
          = .ok { histStore with books := histStore.books.eraseP (fun x => x.id == 1) } ∧
        get_book { histStore with books := histStore.books.eraseP (fun x => x.id == 1) } 1
          = .error .notFound)) ∧
    ((0 < get_total_borrows_count_for_book witnessStore 1 →
        delete_book witnessStore 1 = .error .failedPrecondition) ∧
      (get_total_borrows_count_for_book witnessStore 1 = 0 →
        delete_book witnessStore 1
          = .ok { witnessStore with books := witnessStore.books.eraseP (fun x => x.id == 1) } ∧
        get_book { witnessStore with books := witnessStore.books.eraseP (fun x => x.id == 1) } 1
          = .error .notFound)) :=
  ⟨delete_book_history_guard histStore 1
      ⟨1, "Dune", "Herbert", none, none, none, 1, 1⟩ (by decide) (by decide) (by decide),
   delete_book_history_guard witnessStore 1
      ⟨1, "Ubik", "Dick", none, none, none, 1, 1⟩ (by decide) (by decide) (by decide)⟩

/-- Counterexample for C3 as frozen: on the reachable store whose book 1
has exactly one BorrowRecord, already RETURNED, the gRPC `DeleteBook`
call — which the claim also covers — fails with an unhandled database
`IntegrityError` (the delete cannot commit past the NOT NULL foreign key),
not with the claimed FailedPrecondition; the rolled-back transaction does
leave the book in place. -/
theorem delete_book_history_guard_counterexample :
    historyScenario = .ok histStore ∧
    get_active_borrows_for_book histStore 1 = 0 ∧
    get_total_borrows_count_for_book histStore 1 = 1 ∧
    grpc_DeleteBook histStore 1 = .error .integrityError ∧
    errorOf (grpc_DeleteBook histStore 1) ≠ some .failedPrecondition :=
  ⟨rfl, by decide, by decide, rfl, by decide⟩

/-- C4 (amended).  Delete-versus-deactivate policy for members, as
implemented by the REST `delete_member` route: with any BORROWED record
the call fails FailedPrecondition; with only RETURNED history the member
is kept (same member count, record list untouched) but `is_active` is set
false and the "deactivated" outcome is returned; with zero history the
member row is physically removed and "deleted" is returned.  The gRPC
`DeleteMember` has no deactivation branch: on a member with RETURNED-only
history its delete attempt aborts at commit on the NOT NULL foreign key
with an unhandled `IntegrityError` — the member survives, still active,
and no "deactivated" outcome exists — so the claim is restricted to the
REST path. -/
theorem delete_member_policy (s : Store) (memberId : Nat) (m : Member)
    (hm : findMember s memberId = some m) :
    (0 < get_active_borrows_count s memberId →
      delete_member s memberId = .error .failedPrecondition) ∧
    (get_active_borrows_count s memberId = 0 →
      0 < get_total_borrows_count s memberId →
      ∃ s', delete_member s memberId = .ok (s', .deactivated) ∧
        findMember s' memberId = some { m with is_active := false } ∧
        s'.members.length = s.members.length ∧
        s'.borrows = s.borrows) ∧
    (get_active_borrows_count s memberId = 0 →
      get_total_borrows_count s memberId = 0 →
      delete_member s memberId
        = .ok ({ s with members := s.members.eraseP (fun x => x.id == memberId) }, .deleted)) := by
  refine ⟨?_, ?_, ?_⟩
  · intro hact
    unfold delete_member
    simp only [hm]
    rw [if_pos hact]
  · intro hact htot
    unfold delete_member
    simp only [hm]
    rw [if_neg (by omega), if_pos htot]
    refine ⟨_, rfl, ?_, ?_, rfl⟩
    · have hm' : s.members.find? (fun x => x.id == memberId) = some m := hm
      have hp := List.find?_some hm'
      exact find?_updateFirst _ _ s.members m hm' hp
    · exact length_updateFirst _ _ s.members
  · intro hact htot
    unfold delete_member
    simp only [hm]
    rw [if_neg (by omega), if_neg (by omega)]

/-- Witness for C4: deactivation on the reachable store whose member 1 has
one RETURNED record, and physical removal on the store whose member 1 has
no records. -/
theorem delete_member_policy_witness :
    ((0 < get_active_borrows_count histStore 1 →
        delete_member histStore 1 = .error .failedPrecondition) ∧
      (get_active_borrows_count histStore 1 = 0 →
        0 < get_total_borrows_count histStore 1 →
        ∃ s', delete_member histStore 1 = .ok (s', .deactivated) ∧
          findMember s' 1 = some ⟨1, "Ann", "ann@lib.io", none, none, false⟩ ∧
          s'.members.length = histStore.members.length ∧
          s'.borrows = histStore.borrows) ∧
      (get_active_borrows_count histStore 1 = 0 →
        get_total_borrows_count histStore 1 = 0 →
        delete_member histStore 1
          = .ok ({ histStore with
                   members := histStore.members.eraseP (fun x => x.id == 1) }, .deleted))) ∧
    ((0 < get_active_borrows_count witnessStore 1 →
        delete_member witnessStore 1 = .error .failedPrecondition) ∧
      (get_active_borrows_count witnessStore 1 = 0 →
        0 < get_total_borrows_count witnessStore 1 →
        ∃ s', delete_member witnessStore 1 = .ok (s', .deactivated) ∧
          findMember s' 1 = some ⟨1, "Eve", "eve@lib.io", none, none, false⟩ ∧
          s'.members.length = witnessStore.members.length ∧
          s'.borrows = witnessStore.borrows) ∧
      (get_active_borrows_count witnessStore 1 = 0 →
        get_total_borrows_count witnessStore 1 = 0 →
        delete_member witnessStore 1
          = .ok ({ witnessStore with
                   members := witnessStore.members.eraseP (fun x => x.id == 1) }, .deleted))) :=
  ⟨delete_member_policy histStore 1
      ⟨1, "Ann", "ann@lib.io", none, none, true⟩ (by decide),
   delete_member_policy witnessStore 1
      ⟨1, "Eve", "eve@lib.io", none, none, true⟩ (by decide)⟩

/-- Counterexample for C4 as frozen: on the reachable store whose active
member 1 has exactly one BorrowRecord, already RETURNED, the gRPC
`DeleteMember` call — which the claim also covers — aborts with an
unhandled database `IntegrityError` (the delete cannot commit past the
NOT NULL foreign key) and rolls back: the member is neither deactivated
nor signalled "deactivated", contradicting the claim's
deactivation clause. -/
theorem delete_member_policy_counterexample :
    historyScenario = .ok histStore ∧
    get_active_borrows_count histStore 1 = 0 ∧
    get_total_borrows_count histStore 1 = 1 ∧
    findMember histStore 1 = some ⟨1, "Ann", "ann@lib.io", none, none, true⟩ ∧
    grpc_DeleteMember histStore 1 = .error .integrityError ∧
    errorOf (grpc_DeleteMember histStore 1) ≠ some .failedPrecondition :=
  ⟨rfl, by decide, by decide, by decide, rfl, by decide⟩

/-- The shrink-scenario store, named for use in statements. -/
def shrinkStore : Store := getStore shrinkScenario

/-- The drifted store, named for use in statements. -/
def driftStore : Store := getStore driftScenario

/-- `increase_available_copies` never touches the borrow table. -/
theorem increase_borrows (t : Store) (bid : Nat) :
    ((increase_available_copies t bid).1).borrows = t.borrows := by
  unfold increase_available_copies
  cases h : findBook t bid
  · rfl
  · rfl

/-- C5 (amended).  For the REST `return_book` path on an existing BORROWED
record: the record gets `return_date = today` and status RETURNED, and the
associated book's `available_copies` becomes
`min(available_copies + 1, total_copies)` — incremented by one, clamped so
it never exceeds `total_copies`.  The gRPC `ReturnBook` has no
application-level clamp: when the unclamped increment would exceed
`total_copies`, the books CHECK constraint aborts the flush with an
unhandled `IntegrityError` and the whole call rolls back — the record is
not returned and nothing is incremented (the counterexample shows such an
aborted call at a REST-reachable store) — so the claim's effect clause is
restricted to the REST path.  The program never stores
`available_copies > total_copies` on either path. -/
theorem return_book_clamped_increment (today : Int) (s : Store) (borrowId : Nat)
    (r : BorrowRecord) (hr : findBorrow s borrowId = some r)
    (hst : r.status = "BORROWED") :
    ∃ s', return_book today s borrowId
        = .ok (s', { r with return_date := some today, status := "RETURNED" }) ∧
      (findBook s r.book_id = none → s'.books = s.books) ∧
      ∀ b, findBook s r.book_id = some b →
        findBook s' r.book_id
          = some { b with available_copies := min (b.available_copies + 1) b.total_copies } ∧
        min (b.available_copies + 1) b.total_copies ≤ b.total_copies := by
  unfold return_book
  simp only [hr]
  have hneq : ¬(r.is_returned = true) := by
    simp [BorrowRecord.is_returned, hst]
  rw [if_neg hneq]
  refine ⟨_, rfl, ?_, ?_⟩
  · intro hnone
    have hfb1 : findBook
        { s with
          borrows := updateFirst (fun x => x.id == borrowId)
            (fun x => { x with return_date := some today, status := "RETURNED" })
            s.borrows } r.book_id = none := hnone
    unfold increase_available_copies
    simp only [hfb1]
  · intro b hfb
    have hfb1 : findBook
        { s with
          borrows := updateFirst (fun x => x.id == borrowId)
            (fun x => { x with return_date := some today, status := "RETURNED" })
            s.borrows } r.book_id = some b := hfb
    constructor
    · unfold increase_available_copies
      simp only [hfb1]
      have hfb' : s.books.find? (fun x => x.id == r.book_id) = some b := hfb
      have hp := List.find?_some hfb'
      exact find?_updateFirst _ _ s.books b hfb' hp
    · exact min_le_right _ _

/-- Witness for C5: returning record 1 of the reachable two-borrows store;
the book goes from 0 to `min(0+1, 2) = 1` available copies. -/
theorem return_book_clamped_increment_witness :
    ∃ s', return_book 3 shrinkStore 1
        = .ok (s', ⟨1, 1, 1, 0, 14, some 3, "RETURNED"⟩) ∧
      (findBook shrinkStore 1 = none → s'.books = shrinkStore.books) ∧
      ∀ b, findBook shrinkStore 1 = some b →
        findBook s' 1
          = some { b with available_copies := min (b.available_copies + 1) b.total_copies } ∧
        min (b.available_copies + 1) b.total_copies ≤ b.total_copies :=
  return_book_clamped_increment 3 shrinkStore 1
    ⟨1, 1, 1, 0, 14, none, "BORROWED"⟩ (by decide) rfl

/-- Counterexample for C5 as frozen: in the drifted store — reachable
through REST calls alone, with book 1 at `available = total = 1` while
record 2 is still BORROWED — the gRPC `ReturnBook` on record 2, a
ReturnBook call the claim also covers, aborts on the books CHECK
constraint with an unhandled `IntegrityError` and rolls back: it neither
sets `return_date`/status nor increments anything, contradicting the
claimed effect. -/
theorem return_book_clamped_increment_counterexample :
    driftScenario = .ok driftStore ∧
    findBorrow driftStore 2 = some ⟨2, 1, 2, 0, 14, none, "BORROWED"⟩ ∧
    findBook driftStore 1 = some ⟨1, "Dune", "Herbert", none, none, none, 1, 1⟩ ∧
    grpc_ReturnBook 4 driftStore 2 = .error .integrityError :=
  ⟨rfl, by decide, by decide, rfl⟩

/-- C6 (amended).  Partial-update frame property of the REST
`update_member` path: the stored member becomes exactly
`applyMemberUpdate u m` (`MemberRepository.update`'s field application),
under which every field absent from the update keeps its previous value —
in particular `is_active` is unchanged when not supplied — and `is_active`
set explicitly to `false` or `true` is applied with no reference to borrow
history.  The gRPC `UpdateMember` assigns `request.is_active`
unconditionally, and a proto3 request cannot mark the bool as unset, so a
request that only changes `phone` silently flips an active member to
inactive — the counterexample — and the claim is restricted to the
REST path. -/
theorem update_member_frame (s : Store) (memberId : Nat) (m : Member) (u : MemberUpdate)
    (hm : findMember s memberId = some m)
    (hemail : email_conflict s memberId u = false) :
    update_member s memberId u
      = .ok ({ s with
               members := updateFirst (fun x => x.id == memberId)
                 (applyMemberUpdate u) s.members },
             applyMemberUpdate u m) ∧
    findMember
      { s with
        members := updateFirst (fun x => x.id == memberId)
          (applyMemberUpdate u) s.members } memberId
      = some (applyMemberUpdate u m) ∧
    (u.name = none → (applyMemberUpdate u m).name = m.name) ∧
    (u.email = none → (applyMemberUpdate u m).email = m.email) ∧
    (u.phone = none → (applyMemberUpdate u m).phone = m.phone) ∧
    (u.address = none → (applyMemberUpdate u m).address = m.address) ∧
    (u.is_active = none → (applyMemberUpdate u m).is_active = m.is_active) ∧
    (∀ v, u.is_active = some v → (applyMemberUpdate u m).is_active = v) := by
  have hm' : s.members.find? (fun x => x.id == memberId) = some m := hm
  have hp := List.find?_some hm'
  refine ⟨?_, ?_, ?_, ?_, ?_, ?_, ?_, ?_⟩
  · unfold update_member
    simp only [hm]
    rw [if_neg (by simp [hemail])]
  · exact find?_updateFirst _ _ s.members m hm' hp
  · intro h; simp [applyMemberUpdate, h]
  · intro h; simp [applyMemberUpdate, h]
  · intro h; simp [applyMemberUpdate, h]
  · intro h; simp [applyMemberUpdate, h]
  · intro h; simp [applyMemberUpdate, h]
  · intro v h; simp [applyMemberUpdate, h]

/-- Witness for C6: updating only `phone` on the concrete store's active
member 1 through the REST path. -/
theorem update_member_frame_witness :
    update_member witnessStore 1 { phone := some "555" }
      = .ok ({ witnessStore with
               members := updateFirst (fun x => x.id == 1)
                 (applyMemberUpdate { phone := some "555" }) witnessStore.members },
             applyMemberUpdate { phone := some "555" } ⟨1, "Eve", "eve@lib.io", none, none, true⟩) ∧
    findMember
      { witnessStore with
        members := updateFirst (fun x => x.id == 1)
          (applyMemberUpdate { phone := some "555" }) witnessStore.members } 1
      = some (applyMemberUpdate { phone := some "555" } ⟨1, "Eve", "eve@lib.io", none, none, true⟩) ∧
    (({ phone := some "555" } : MemberUpdate).name = none →
      (applyMemberUpdate { phone := some "555" } ⟨1, "Eve", "eve@lib.io", none, none, true⟩).name
        = "Eve") ∧
    (({ phone := some "555" } : MemberUpdate).email = none →
      (applyMemberUpdate { phone := some "555" } ⟨1, "Eve", "eve@lib.io", none, none, true⟩).email
        = "eve@lib.io") ∧
    (({ phone := some "555" } : MemberUpdate).phone = none →
      (applyMemberUpdate { phone := some "555" } ⟨1, "Eve", "eve@lib.io", none, none, true⟩).phone
        = none) ∧
    (({ phone := some "555" } : MemberUpdate).address = none →
      (applyMemberUpdate { phone := some "555" } ⟨1, "Eve", "eve@lib.io", none, none, true⟩).address
        = none) ∧
    (({ phone := some "555" } : MemberUpdate).is_active = none →
      (applyMemberUpdate { phone := some "555" } ⟨1, "Eve", "eve@lib.io", none, none, true⟩).is_active
        = true) ∧
    (∀ v, ({ phone := some "555" } : MemberUpdate).is_active = some v →
      (applyMemberUpdate { phone := some "555" } ⟨1, "Eve", "eve@lib.io", none, none, true⟩).is_active
        = v) :=
  update_member_frame witnessStore 1 ⟨1, "Eve", "eve@lib.io", none, none, true⟩
    { phone := some "555" } (by decide) (by decide)

/-- Counterexample for C6 as frozen: member 1 is active; a gRPC
`UpdateMember` request that supplies only `phone` (so `is_active` is the
unset proto3 default `false`) — an UpdateMember call the claim also
covers — leaves the member with `is_active = false` instead of keeping its
previous `true`. -/
theorem update_member_frame_counterexample :
    findMember witnessStore 1 = some ⟨1, "Eve", "eve@lib.io", none, none, true⟩ ∧
    (grpc_UpdateMember witnessStore 1 ⟨"", "", "555", "", false⟩).map Prod.fst
      = .ok (getStore ((grpc_UpdateMember witnessStore 1 ⟨"", "", "555", "", false⟩).map Prod.fst)) ∧
    findMember
      (getStore ((grpc_UpdateMember witnessStore 1 ⟨"", "", "555", "", false⟩).map Prod.fst)) 1
      = some ⟨1, "Eve", "eve@lib.io", some "555", none, false⟩ :=
  ⟨by decide, rfl, by decide⟩

/-- C7 (confirmed).  `UpdateBook` changing `total_copies` to `tc` on an
existing book: the call succeeds (isbn guard permitting), the stored book
is `applyBookUpdate u b`, whose `available_copies` is exactly
`max 0 (old_available + (tc - old_total))` and whose `total_copies` is
`tc`.  The witness instantiates spec Scenario E: 2 → 4 with
`available_copies = 0` yields 2. -/
theorem update_book_total_copies_formula (s : Store) (bookId : Nat) (b : Book)
    (u : BookUpdate) (tc : Int)
    (hb : findBook s bookId = some b) (htc : u.total_copies = some tc)
    (hisbn : isbn_conflict s bookId u = false) :
    update_book s bookId u
      = .ok ({ s with
               books := updateFirst (fun x => x.id == bookId)
                 (applyBookUpdate u) s.books },
             applyBookUpdate u b) ∧
    (applyBookUpdate u b).available_copies
      = max 0 (b.available_copies + (tc - b.total_copies)) ∧
    (applyBookUpdate u b).total_copies = tc ∧
    findBook
      { s with
        books := updateFirst (fun x => x.id == bookId)
          (applyBookUpdate u) s.books } bookId
      = some (applyBookUpdate u b) := by
  have hb' : s.books.find? (fun x => x.id == bookId) = some b := hb
  have hp := List.find?_some hb'
  refine ⟨?_, ?_, ?_, ?_⟩
  · unfold update_book
    simp only [hb]
    rw [if_neg (by simp [hisbn])]
  · simp [applyBookUpdate, htc]
  · simp [applyBookUpdate, htc]
  · exact find?_updateFirst _ _ s.books b hb' hp

/-- Witness for C7, spec Scenario E: book 1 of the reachable two-borrows
store has `total_copies = 2`, `available_copies = 0`; updating
`total_copies` to 4 yields `available_copies = max 0 (0 + (4 - 2)) = 2`. -/
theorem update_book_total_copies_formula_witness :
    (update_book shrinkStore 1 { total_copies := some 4 }
        = .ok ({ shrinkStore with
                 books := updateFirst (fun x => x.id == 1)
                   (applyBookUpdate { total_copies := some 4 }) shrinkStore.books },
               applyBookUpdate { total_copies := some 4 }
                 ⟨1, "Dune", "Herbert", none, none, none, 2, 0⟩) ∧
      (applyBookUpdate { total_copies := some 4 }
          ⟨1, "Dune", "Herbert", none, none, none, 2, 0⟩).available_copies
        = max 0 ((0 : Int) + (4 - 2)) ∧
      (applyBookUpdate { total_copies := some 4 }
          ⟨1, "Dune", "Herbert", none, none, none, 2, 0⟩).total_copies = 4 ∧
      findBook
        { shrinkStore with
          books := updateFirst (fun x => x.id == 1)
            (applyBookUpdate { total_copies := some 4 }) shrinkStore.books } 1
        = some (applyBookUpdate { total_copies := some 4 }
            ⟨1, "Dune", "Herbert", none, none, none, 2, 0⟩)) ∧
    (applyBookUpdate { total_copies := some 4 }
        ⟨1, "Dune", "Herbert", none, none, none, 2, 0⟩).available_copies = 2 :=
  ⟨update_book_total_copies_formula shrinkStore 1
      ⟨1, "Dune", "Herbert", none, none, none, 2, 0⟩
      { total_copies := some 4 } 4 (by decide) rfl (by decide),
   by decide⟩

/-- C8 (confirmed).  A BorrowBook call whose six preconditions all hold
decrements the book's `available_copies` by exactly 1 and appends exactly
one new BorrowRecord, with status BORROWED, `borrow_date = today`, and
`due_date = today + default_borrow_days`; the configured defaults are
`default_borrow_days = 14` and `max_books_per_member = 5`.  The decrement
and the insert are two writes of one and the same transaction (the single
store-to-store step below), committed together by `uow.commit()` or rolled
back together — no partially applied state is a value of this function. -/
theorem borrow_book_effect (st : Settings) (today : Int) (s : Store)
    (bookId memberId : Nat) (book : Book) (member : Member)
    (hb : findBook s bookId = some book) (hav : book.is_available = true)
    (hm : findMember s memberId = some member) (hcb : member.can_borrow = true)
    (hlim : get_active_borrows_count s memberId < st.max_books_per_member)
    (hdup : has_active_borrow s bookId memberId = false) :
    ∃ s', borrow_book st today s bookId memberId
        = .ok (s', ⟨s.nextBorrowId, bookId, memberId, today,
                    today + st.default_borrow_days, none, "BORROWED"⟩) ∧
      s'.borrows = s.borrows
        ++ [⟨s.nextBorrowId, bookId, memberId, today,
             today + st.default_borrow_days, none, "BORROWED"⟩] ∧
      findBook s' bookId = some { book with available_copies := book.available_copies - 1 } ∧
      s'.members = s.members ∧
      defaultSettings.default_borrow_days = 14 ∧
      defaultSettings.max_books_per_member = 5 := by
  have hb' : s.books.find? (fun x => x.id == bookId) = some book := hb
  have hp := List.find?_some hb'
  have hpos : 0 < book.available_copies := by
    simpa [Book.is_available] using hav
  unfold borrow_book
  simp only [hb, hm]
  rw [if_neg (by simp [hav]), if_neg (by simp [hcb]),
    if_neg (not_le.mpr hlim), if_neg (by simp [hdup])]
  have hdec : decrease_available_copies s bookId =
      ({ s with
         books := updateFirst (fun x => x.id == bookId)
           (fun x => { x with available_copies := x.available_copies - 1 })
           s.books }, true) := by
    unfold decrease_available_copies
    simp only [hb]
    rw [if_neg (not_le.mpr hpos)]
  rw [hdec]
  refine ⟨_, rfl, rfl, ?_, rfl, rfl, rfl⟩
  exact find?_updateFirst _ _ s.books book hb' hp

/-- Witness for C8: the concrete store's member 1 borrows book 1 on day 0
under the default settings; the new record is
`⟨1, 1, 1, 0, 14, none, BORROWED⟩` and book 1 drops from 1 to 0 available
copies. -/
theorem borrow_book_effect_witness :
    ∃ s', borrow_book defaultSettings 0 witnessStore 1 1
        = .ok (s', ⟨witnessStore.nextBorrowId, 1, 1, 0,
                    0 + defaultSettings.default_borrow_days, none, "BORROWED"⟩) ∧
      s'.borrows = witnessStore.borrows
        ++ [⟨witnessStore.nextBorrowId, 1, 1, 0,
             0 + defaultSettings.default_borrow_days, none, "BORROWED"⟩] ∧
      findBook s' 1 = some { (⟨1, "Ubik", "Dick", none, none, none, 1, 1⟩ : Book) with
                             available_copies :=
                               (⟨1, "Ubik", "Dick", none, none, none, 1, 1⟩ : Book).available_copies
                                 - 1 } ∧
      s'.members = witnessStore.members ∧
      defaultSettings.default_borrow_days = 14 ∧
      defaultSettings.max_books_per_member = 5 :=
  borrow_book_effect defaultSettings 0 witnessStore 1 1
    ⟨1, "Ubik", "Dick", none, none, none, 1, 1⟩
    ⟨1, "Eve", "eve@lib.io", none, none, true⟩
    (by decide) rfl (by decide) rfl (by decide) (by decide)

/-- C9 (amended).  Calling the REST `return_book` twice on the same
BORROWED record: the first call succeeds and produces the RETURNED record
(its clamped increment keeps the books CHECK constraint satisfied, so the
commit always goes through); the second call on the resulting store fails
FailedPrecondition ("already returned").  The failing call aborts before
any write — in the route, `HTTPException` is raised before
`mark_returned`, and `UnitOfWork.__exit__` rolls the transaction back —
so the state produced by the first call is unchanged (the embedding
returns only the error, producing no new store).  The gRPC `ReturnBook`,
which the claim also covers, is excluded: at the drifted store its *first*
call aborts on the CHECK constraint instead of succeeding (the
counterexample). -/
theorem return_book_twice (today today2 : Int) (s : Store) (borrowId : Nat)
    (r : BorrowRecord) (hr : findBorrow s borrowId = some r)
    (hst : r.status = "BORROWED") :
    ∃ s', return_book today s borrowId
        = .ok (s', { r with return_date := some today, status := "RETURNED" }) ∧
      return_book today2 s' borrowId = .error .failedPrecondition := by
  have hr' : s.borrows.find? (fun x => x.id == borrowId) = some r := hr
  have hp := List.find?_some hr'
  unfold return_book
  simp only [hr]
  have hneq : ¬(r.is_returned = true) := by
    simp [BorrowRecord.is_returned, hst]
  rw [if_neg hneq]
  refine ⟨_, rfl, ?_⟩
  have hfr2 : findBorrow
      ((increase_available_copies
        { s with
          borrows := updateFirst (fun x => x.id == borrowId)
            (fun x => { x with return_date := some today, status := "RETURNED" })
            s.borrows } r.book_id).1) borrowId
      = some { r with return_date := some today, status := "RETURNED" } := by
    unfold findBorrow
    rw [increase_borrows]
    exact find?_updateFirst _ _ s.borrows r hr' hp
  simp only [hfr2]
  rw [if_pos (by simp [BorrowRecord.is_returned])]

/-- Witness for C9: record 1 of the reachable two-borrows store is
returned once successfully; the second call fails FailedPrecondition. -/
theorem return_book_twice_witness :
    ∃ s', return_book 3 shrinkStore 1
        = .ok (s', ⟨1, 1, 1, 0, 14, some 3, "RETURNED"⟩) ∧
      return_book 5 s' 1 = .error .failedPrecondition :=
  return_book_twice 3 5 shrinkStore 1 ⟨1, 1, 1, 0, 14, none, "BORROWED"⟩ (by decide) rfl

/-- Counterexample for C9 as frozen: at the REST-reachable drifted store,
record 2 exists with status BORROWED, yet the *first* gRPC `ReturnBook`
call on it — a ReturnBook call the claim also covers — does not succeed:
the unclamped increment trips the books CHECK constraint
(`available = total = 1` already) and the call aborts with an unhandled
`IntegrityError`. -/
theorem return_book_twice_counterexample :
    driftScenario = .ok driftStore ∧
    findBorrow driftStore 2 = some ⟨2, 1, 2, 0, 14, none, "BORROWED"⟩ ∧
    findBook driftStore 1 = some ⟨1, "Dune", "Herbert", none, none, none, 1, 1⟩ ∧
    errorOf (grpc_ReturnBook 4 driftStore 2) ≠ none ∧
    grpc_ReturnBook 4 driftStore 2 = .error .integrityError :=
  ⟨rfl, by decide, by decide, by decide, rfl⟩

/-- C10 (confirmed).  ReturnBook on an existing BORROWED record whose
`book_id` matches no book: the call still succeeds — the record gets
status RETURNED and `return_date = today`, the book table is untouched —
because `increase_available_copies` returns `False` for a missing book
instead of raising (and the route ignores that return value). -/
theorem return_book_missing_book (today : Int) (s : Store) (borrowId : Nat)
    (r : BorrowRecord) (hr : findBorrow s borrowId = some r)
    (hst : r.status = "BORROWED") (hnb : findBook s r.book_id = none) :
    ∃ s', return_book today s borrowId
        = .ok (s', { r with return_date := some today, status := "RETURNED" }) ∧
      s'.books = s.books ∧
      findBorrow s' borrowId
        = some { r with return_date := some today, status := "RETURNED" } := by
  have hr' : s.borrows.find? (fun x => x.id == borrowId) = some r := hr
  have hp := List.find?_some hr'
  unfold return_book
  simp only [hr]
  have hneq : ¬(r.is_returned = true) := by
    simp [BorrowRecord.is_returned, hst]
  rw [if_neg hneq]
  have hfb1 : findBook
      { s with
        borrows := updateFirst (fun x => x.id == borrowId)
          (fun x => { x with return_date := some today, status := "RETURNED" })
          s.borrows } r.book_id = none := hnb
  have hinc : increase_available_copies
      { s with
        borrows := updateFirst (fun x => x.id == borrowId)
          (fun x => { x with return_date := some today, status := "RETURNED" })
          s.borrows } r.book_id
      = ({ s with
           borrows := updateFirst (fun x => x.id == borrowId)
             (fun x => { x with return_date := some today, status := "RETURNED" })
             s.borrows }, false) := by
    unfold increase_available_copies
    simp only [hfb1]
  rw [hinc]
  refine ⟨_, rfl, rfl, ?_⟩
  exact find?_updateFirst _ _ s.borrows r hr' hp

/-- A store holding one BORROWED record whose book is absent from the book
table.  No committed database state looks like this — the
`borrow_records.book_id` foreign key forbids it — so C10 is a conditional
about the code's guarded lookup, exercised here on the kind of store that
guard is written for. -/
def orphanStore : Store := ⟨[], [], [⟨1, 1, 1, 0, 14, none, "BORROWED"⟩], 2, 1, 2⟩

/-- Witness for C10: returning the orphaned record succeeds and leaves the
(empty) book table untouched. -/
theorem return_book_missing_book_witness :
    ∃ s', return_book 3 orphanStore 1
        = .ok (s', ⟨1, 1, 1, 0, 14, some 3, "RETURNED"⟩) ∧
      s'.books = orphanStore.books ∧
      findBorrow s' 1 = some ⟨1, 1, 1, 0, 14, some 3, "RETURNED"⟩ :=
  return_book_missing_book 3 orphanStore 1 ⟨1, 1, 1, 0, 14, none, "BORROWED"⟩
    (by decide) rfl (by decide)
